import Mathlib

/-!
Verification of the battery price attribution engine of EOS_connect
(`src/interfaces/battery_price_handler.py`).

The Python code is shallowly embedded: machine floats become `ℚ`,
timestamps become `ℚ` (seconds), dictionaries become structures, and the
stateful handler becomes explicit state passing.  Every definition below is
translated from the source file; line numbers in comments refer to
`battery_price_handler.py`.
-/

namespace BatteryPrice

/-- A single telemetry sample: `{timestamp, value}` as produced by
`_convert_historical_data` (timestamps modelled as rational seconds). -/
structure Sample where
  ts : ℚ
  value : ℚ
deriving DecidableEq, Repr, Inhabited

/-- The dictionary of fetched sensor histories (`historical_data` in the
source); a sensor missing from the dict is modelled as an empty list. -/
structure HistoricalData where
  battery_power : List Sample
  pv_power : List Sample
  grid_power : List Sample
  load_power : List Sample
  price_data : List Sample
deriving DecidableEq, Repr

/-- Battery power sign convention (`battery_power_convention` strings). -/
inductive Convention where
  | positive_charging
  | negative_charging
deriving DecidableEq, Repr

/-- The configuration fields of `BatteryPriceHandler` that the analysis
algorithms read (lines 72-79 of the source). -/
structure Config where
  charging_threshold_w : ℚ
  grid_charge_threshold_w : ℚ
  charge_efficiency : ℚ
deriving DecidableEq, Repr

/-- Gap tolerance when identifying charging events
(`MAX_GAP_SECONDS_IDENTIFY = 600`, line 36). -/
def MAX_GAP_SECONDS_IDENTIFY : ℚ := 600

/-- Fallback time delta between points (`DEFAULT_DELTA_SECONDS = 300`,
line 39). -/
def DEFAULT_DELTA_SECONDS : ℚ := 300

/-- Convention normalization: negate the raw value when the detected
convention is `negative_charging` (lines 732-735 / 784-788 / 853-856). -/
def normalizedPower (conv : Convention) (v : ℚ) : ℚ :=
  if conv = Convention.negative_charging then -v else v

/-- `_calculate_power_split` (lines 892-917): split battery charging power
between PV surplus and grid surplus.  The Python in-place updates of
`grid_to_battery` / `remaining_battery` / `pv_to_battery` are expressed as
successive immutable bindings. -/
def calculate_power_split (grid_charge_threshold_w : ℚ)
    (battery_power pv_power grid_power load_power : ℚ) : ℚ × ℚ :=
  let pv_for_load := min pv_power load_power
  let remaining_load := max 0 (load_power - pv_for_load)
  let grid_for_load := min grid_power remaining_load
  let pv_surplus := max 0 (pv_power - pv_for_load)
  let grid_surplus := max 0 (grid_power - grid_for_load)
  let pv_to_battery := min battery_power pv_surplus
  let remaining_battery := max 0 (battery_power - pv_to_battery)
  let grid_to_battery :=
    if grid_surplus > grid_charge_threshold_w then
      min remaining_battery grid_surplus
    else 0
  let remaining_battery2 :=
    if grid_surplus > grid_charge_threshold_w then
      max 0 (remaining_battery - grid_to_battery)
    else remaining_battery
  let pv_to_battery2 :=
    if remaining_battery2 > 0 then pv_to_battery + remaining_battery2
    else pv_to_battery
  (pv_to_battery2, grid_to_battery)

/-- Hour-of-day of a timestamp given in seconds, used by
`_get_fallback_price` (`timestamp.hour` in the source). -/
def hourOf (ts : ℚ) : ℤ :=
  (Int.floor (ts / 3600)) % 24

/-- `_get_fallback_price` (lines 919-926): time-of-day default price in
euro per kWh used when no historical price data is available
(0.15 / 0.25 / 0.35 as exact rationals). -/
def get_fallback_price (ts : ℚ) : ℚ :=
  let hour := hourOf ts
  if 22 ≤ hour ∨ hour ≤ 6 then 3 / 20
  else if 7 ≤ hour ∧ hour ≤ 13 then 1 / 4
  else 7 / 20

/-- Number of cursor advances performed by the `while` loop of
`_get_aligned_value` (line 887) starting from the list suffix that begins
at the current index: advance while a next sample exists whose timestamp
is at or before the interval start. -/
def advanceCount (ts : ℚ) : List Sample → ℕ
  | _ :: y :: rest => if y.ts ≤ ts then advanceCount ts (y :: rest) + 1 else 0
  | _ => 0

/-- `_get_aligned_value` (lines 874-890): monotone cursor lookup.  Empty
data returns the fallback value (price stream) or `0.0` (power streams);
otherwise the cursor is advanced to the latest sample at or before `ts`
and that sample's value is returned together with the new cursor. -/
def get_aligned_value (data : List Sample) (ts : ℚ) (idx : ℕ)
    (fallback : Option (ℚ → ℚ)) : ℚ × ℕ :=
  match data with
  | [] =>
    (match fallback with
     | some f => f ts
     | none => 0, idx)
  | _ :: _ =>
    let idx2 := idx + advanceCount ts (data.drop idx)
    ((data.getD idx2 default).value, idx2)

/-- Per-event totals accumulated by `_split_energy_sources`
(lines 803-811). -/
structure SplitTotals where
  pv_to_battery_wh : ℚ
  grid_to_battery_wh : ℚ
  total_battery_wh : ℚ
  total_pv_wh : ℚ
  total_grid_wh : ℚ
  total_load_wh : ℚ
  grid_cost_euro : ℚ
deriving DecidableEq, Repr

/-- The all-zero totals dict (lines 803-811). -/
def zeroTotals : SplitTotals := ⟨0, 0, 0, 0, 0, 0, 0⟩

/-- The interval loop of `_split_energy_sources` (lines 820-869): walk
consecutive point pairs, thread the four stream cursors, and accumulate
energies and grid cost. -/
def splitLoop (gct : ℚ) (conv : Convention)
    (pv grid load price : List Sample) :
    List Sample → ℕ × ℕ × ℕ × ℕ → SplitTotals → SplitTotals
  | p_start :: p_end :: rest, (ipv, igrid, iload, iprice), t =>
    let ts := p_start.ts
    let delta_seconds0 := p_end.ts - p_start.ts
    let delta_seconds :=
      if delta_seconds0 > MAX_GAP_SECONDS_IDENTIFY then DEFAULT_DELTA_SECONDS
      else delta_seconds0
    let time_hours := delta_seconds / 3600
    let pvr := get_aligned_value pv ts ipv none
    let gridr := get_aligned_value grid ts igrid none
    let loadr := get_aligned_value load ts iload none
    let pricer := get_aligned_value price ts iprice (some get_fallback_price)
    let raw_avg_power := (p_start.value + p_end.value) / 2
    let avg_battery_power := normalizedPower conv raw_avg_power
    let split := calculate_power_split gct avg_battery_power pvr.1 gridr.1 loadr.1
    let grid_energy_wh := split.2 * time_hours
    let t2 : SplitTotals :=
      { pv_to_battery_wh := t.pv_to_battery_wh + split.1 * time_hours
        grid_to_battery_wh := t.grid_to_battery_wh + grid_energy_wh
        total_battery_wh := t.total_battery_wh + avg_battery_power * time_hours
        total_pv_wh := t.total_pv_wh + pvr.1 * time_hours
        total_grid_wh := t.total_grid_wh + gridr.1 * time_hours
        total_load_wh := t.total_load_wh + loadr.1 * time_hours
        grid_cost_euro := t.grid_cost_euro + (grid_energy_wh / 1000) * pricer.1 }
    splitLoop gct conv pv grid load price (p_end :: rest)
      (pvr.2, gridr.2, loadr.2, pricer.2) t2
  | _, _, t => t

/-- `_split_energy_sources` (lines 799-871): events with fewer than two
points contribute the zero totals; otherwise run the interval loop with
all cursors at 0. -/
def split_energy_sources (gct : ℚ) (conv : Convention)
    (power_points : List Sample)
    (pv grid load price : List Sample) : SplitTotals :=
  if power_points.length < 2 then zeroTotals
  else splitLoop gct conv pv grid load price power_points (0, 0, 0, 0) zeroTotals

/-! ### Stable insertion sort

Python's `list.sort(key=...)` is a stable ascending sort; with
`reverse=True` it is a stable descending sort.  Both are modelled by a
stable insertion sort parametrised by a Boolean "`q` may stay before `p`"
relation: a new element is inserted after every element it does not have
to precede, which preserves the original order of equal keys. -/

/-- Insert `p` after all leading elements `q` with `keep q p = true`. -/
def insort (keep : α → α → Bool) : List α → α → List α
  | [], p => [p]
  | q :: rest, p =>
    if keep q p then q :: insort keep rest p else p :: q :: rest

/-- Stable insertion sort (model of Python `list.sort`). -/
def stableSort (keep : α → α → Bool) (l : List α) : List α :=
  l.foldl (insort keep) []

/-- Sort samples ascending by timestamp (`sort(key=lambda x: x["timestamp"])`). -/
def sortByTs (l : List Sample) : List Sample :=
  stableSort (fun q p => decide (q.ts ≤ p.ts)) l

/-! ### Convention detection (`_detect_battery_power_convention`,
lines 567-702) -/

/-- `_get_value_at_timestamp` (lines 665-681): value of the first sample
closest in time to the target, provided it is within 300 seconds; `0.0`
otherwise or when the list is empty.  Python's `min` returns the first
minimum, modelled by replacing the running best only on a strictly
smaller distance. -/
def get_value_at_timestamp (data : List Sample) (t : ℚ) : ℚ :=
  match data with
  | [] => 0
  | x :: rest =>
    let closest := rest.foldl
      (fun best y => if |y.ts - t| < |best.ts - t| then y else best) x
    if |closest.ts - t| ≤ 300 then closest.value else 0

/-- The counting loop of `_detect_battery_power_convention`
(lines 617-645): first component counts "EVCC" events (negative battery
power while energy is available), second counts "standard" events
(positive battery power while energy is available). -/
def contextualCounts (threshold : ℚ)
    (battery_sample pv grid load : List Sample) : ℕ × ℕ :=
  battery_sample.foldl
    (fun c bp =>
      let battery_power := bp.value
      if |battery_power| ≤ threshold then c
      else
        let grid_power := get_value_at_timestamp grid bp.ts
        let pv_power := get_value_at_timestamp pv bp.ts
        let load_power := get_value_at_timestamp load bp.ts
        let grid_importing := grid_power > threshold
        let pv_surplus := pv_power > load_power + threshold
        if grid_importing ∨ pv_surplus then
          if battery_power < -threshold then (c.1 + 1, c.2)
          else if battery_power > threshold then (c.1, c.2 + 1)
          else c
        else c)
    (0, 0)

/-- The sample window of convention detection (lines 586-588): the most
recent `max 100 (n / 5)` battery points. -/
def conventionSampleWindow (d : HistoricalData) : List Sample :=
  let sample_size := max 100 (d.battery_power.length / 5)
  d.battery_power.drop (d.battery_power.length - sample_size)

/-- Time-range filtering of the other sensors to the sample window
(lines 591-614), after sorting each stream by timestamp. -/
def conventionFiltered (d : HistoricalData) :
    List Sample × List Sample × List Sample :=
  let pv_data := sortByTs d.pv_power
  let grid_data := sortByTs d.grid_power
  let load_data := sortByTs d.load_power
  match sortByTs (conventionSampleWindow d) with
  | [] => (pv_data, grid_data, load_data)
  | first :: rest =>
    let sample_start := first.ts
    let sample_end := (List.getLastD rest first).ts
    (pv_data.filter (fun p => decide (sample_start ≤ p.ts ∧ p.ts ≤ sample_end)),
     grid_data.filter (fun p => decide (sample_start ≤ p.ts ∧ p.ts ≤ sample_end)),
     load_data.filter (fun p => decide (sample_start ≤ p.ts ∧ p.ts ≤ sample_end)))

/-- The contextual event counts produced by convention detection for a
given data set (`evcc_charging_count`, `standard_charging_count`). -/
def conventionCounts (cfg : Config) (d : HistoricalData) : ℕ × ℕ :=
  let streams := conventionFiltered d
  contextualCounts cfg.charging_threshold_w
    (sortByTs (conventionSampleWindow d)) streams.1 streams.2.1 streams.2.2

/-- `_fallback_convention_detection` (lines 683-702): majority sign among
points whose magnitude exceeds twice the charging threshold. -/
def fallback_convention_detection (charging_threshold_w : ℚ)
    (battery_data : List Sample) : Convention :=
  let threshold := charging_threshold_w * 2
  let positive_count := battery_data.countP
    (fun p => decide (|p.value| > threshold ∧ p.value > 0))
  let negative_count := battery_data.countP
    (fun p => decide (|p.value| > threshold ∧ p.value < 0))
  if positive_count < negative_count then Convention.negative_charging
  else Convention.positive_charging

/-- `_detect_battery_power_convention` (lines 567-663): empty battery data
defaults to `positive_charging`; with fewer than 3 contextual events the
magnitude-frequency fallback is used; otherwise the majority of contextual
events decides. -/
def detect_battery_power_convention (cfg : Config) (d : HistoricalData) :
    Convention :=
  match d.battery_power with
  | [] => Convention.positive_charging
  | _ :: _ =>
    let battery_sample := sortByTs (conventionSampleWindow d)
    let counts := conventionCounts cfg d
    if counts.1 + counts.2 < 3 then
      fallback_convention_detection cfg.charging_threshold_w battery_sample
    else if counts.2 < counts.1 then Convention.negative_charging
    else Convention.positive_charging

/-! ### Charging event reconstruction (`_identify_charging_periods`,
lines 704-796) -/

/-- A charging event under construction or completed
(`{start_time, end_time, power_points}`). -/
structure ChargingEvent where
  start_time : ℚ
  end_time : ℚ
  power_points : List Sample
deriving DecidableEq, Repr

/-- Trailing-sample trimming of `_close_charging_event` (lines 781-792):
pop samples from the tail while their normalized power is at or below the
threshold. -/
def trimTail (conv : Convention) (threshold : ℚ) (pts : List Sample) :
    List Sample :=
  (pts.reverse.dropWhile
    (fun p => decide (normalizedPower conv p.value ≤ threshold))).reverse

/-- `_close_charging_event` (lines 777-796): trim the tail, discard the
event if nothing remains, otherwise reset `end_time` to the last remaining
sample and append to the event list. -/
def close_charging_event (conv : Convention) (threshold : ℚ)
    (event : ChargingEvent) (events_list : List ChargingEvent) :
    List ChargingEvent :=
  let pts := trimTail conv threshold event.power_points
  match pts.getLast? with
  | some last =>
    events_list ++ [{ event with power_points := pts, end_time := last.ts }]
  | none => events_list

/-- Loop state of `_identify_charging_periods`: accumulated events plus the
open event paired with `last_charging_time` (which the source only reads
while an event is open). -/
structure IdentifyState where
  events : List ChargingEvent
  current : Option (ChargingEvent × ℚ)
deriving DecidableEq, Repr

/-- One iteration of the scan loop of `_identify_charging_periods`
(lines 727-770). -/
def identifyStep (conv : Convention) (threshold : ℚ)
    (st : IdentifyState) (point : Sample) : IdentifyState :=
  let timestamp := point.ts
  let normalized_power := normalizedPower conv point.value
  if normalized_power > threshold then
    match st.current with
    | none =>
      { st with current := some (⟨timestamp, timestamp, [point]⟩, timestamp) }
    | some (ev, last_charging_time) =>
      let extended : ChargingEvent :=
        { ev with end_time := timestamp,
                  power_points := ev.power_points ++ [point] }
      if timestamp - last_charging_time < MAX_GAP_SECONDS_IDENTIFY then
        { st with current := some (extended, timestamp) }
      else
        { events := close_charging_event conv threshold ev st.events
          current := some (⟨timestamp, timestamp, [point]⟩, timestamp) }
  else
    match st.current with
    | none => st
    | some (ev, last_charging_time) =>
      let extended : ChargingEvent :=
        { ev with end_time := timestamp,
                  power_points := ev.power_points ++ [point] }
      if timestamp - last_charging_time < MAX_GAP_SECONDS_IDENTIFY then
        { st with current := some (extended, last_charging_time) }
      else
        { events := close_charging_event conv threshold ev st.events
          current := none }

/-- `_identify_charging_periods` (lines 704-775), with the convention
already resolved (the source's lazy auto-detection is modelled at the
call site in `calculate_battery_price_from_history`): sort the battery
data by timestamp, scan it, and close any event still open at the end. -/
def identify_charging_periods (threshold : ℚ) (conv : Convention)
    (battery_data : List Sample) : List ChargingEvent :=
  let sorted := sortByTs battery_data
  let st := sorted.foldl (identifyStep conv threshold) ⟨[], none⟩
  match st.current with
  | some (ev, _) => close_charging_event conv threshold ev st.events
  | none => st.events

/-! ### Inventory-weighted aggregation (`_calculate_total_costs`,
lines 272-406) -/

/-- One entry of `all_sessions_data` (lines 310-321). -/
structure SessionData where
  start_time : ℚ
  end_time : ℚ
  charged_energy : ℚ
  charged_from_pv : ℚ
  charged_from_grid : ℚ
  cost : ℚ
  is_inventory : Bool
  inventory_energy : ℚ
deriving DecidableEq, Repr

/-- The four running totals of `_calculate_total_costs` (lines 280-283). -/
structure CostTotals where
  total_cost : ℚ
  total_energy_charged : ℚ
  total_pv_energy : ℚ
  total_grid_energy : ℚ
deriving DecidableEq, Repr

/-- The inventory-marking half of one walk iteration (lines 330-342):
while the accumulated inventory is below the target, mark the session and
book either its full charged energy or the remaining need. -/
def inventoryStep (inventory_wh : Option ℚ) (s : SessionData) (acc : ℚ) :
    SessionData × ℚ :=
  match inventory_wh with
  | some v =>
    if acc < v then
      let remaining_needed := v - acc
      let session_energy := s.charged_energy
      if session_energy ≤ remaining_needed then
        ({ s with is_inventory := true, inventory_energy := session_energy },
         acc + session_energy)
      else
        ({ s with is_inventory := true, inventory_energy := remaining_needed }, v)
    else (s, acc)
  | none => (s, acc)

/-- The price-aggregation half of one walk iteration (lines 344-357):
participating sessions contribute proportionally to the energy used. -/
def aggregateStep (inventory_wh : Option ℚ) (s : SessionData)
    (t : CostTotals) : CostTotals :=
  if inventory_wh.isNone ∨ s.is_inventory then
    let energy_to_use :=
      match inventory_wh with
      | some _ => s.inventory_energy
      | none => s.charged_energy
    let share := energy_to_use / s.charged_energy
    { total_cost := t.total_cost + s.cost * share
      total_energy_charged := t.total_energy_charged + energy_to_use
      total_pv_energy := t.total_pv_energy + s.charged_from_pv * share
      total_grid_energy := t.total_grid_energy + s.charged_from_grid * share }
  else t

/-- The backward inventory walk (lines 329-357), applied to the session
list already sorted by end time descending.  Returns the updated sessions,
the final accumulated inventory, and the cost totals. -/
def inventoryWalk (inventory_wh : Option ℚ) :
    List SessionData → ℚ → CostTotals → List SessionData × ℚ × CostTotals
  | [], acc, t => ([], acc, t)
  | s :: rest, acc, t =>
    let stepped := inventoryStep inventory_wh s acc
    let t2 := aggregateStep inventory_wh stepped.1 t
    let tail := inventoryWalk inventory_wh rest stepped.2 t2
    (stepped.1 :: tail.1, tail.2)

/-- The session-construction loop of `_calculate_total_costs`
(lines 292-321): drop events ending before the active window, split each
remaining event, drop sessions with at most 0.001 Wh, and price the grid
cost through the charge efficiency. -/
def buildSessions (cfg : Config) (conv : Convention) (d : HistoricalData)
    (active_window_start : ℚ) (charging_events : List ChargingEvent) :
    List SessionData :=
  charging_events.filterMap (fun event =>
    if event.end_time < active_window_start then none
    else
      let event_totals := split_energy_sources cfg.grid_charge_threshold_w conv
        event.power_points d.pv_power d.grid_power d.load_power d.price_data
      if event_totals.total_battery_wh ≤ 1 / 1000 then none
      else some
        { start_time := event.start_time
          end_time := event.end_time
          charged_energy := event_totals.total_battery_wh
          charged_from_pv := event_totals.pv_to_battery_wh
          charged_from_grid := event_totals.grid_to_battery_wh
          cost := event_totals.grid_cost_euro / cfg.charge_efficiency
          is_inventory := false
          inventory_energy := 0 })

/-- Sort sessions by end time descending (line 327,
`sort(key=..., reverse=True)`). -/
def sortByEndTimeDesc (l : List SessionData) : List SessionData :=
  stableSort (fun q p => decide (p.end_time ≤ q.end_time)) l

/-- Sort sessions back to chronological order by start time (line 360). -/
def sortByStartTime (l : List SessionData) : List SessionData :=
  stableSort (fun q p => decide (q.start_time ≤ p.start_time)) l

/-- `_calculate_total_costs` (lines 272-406): build the sessions, walk
them most-recent-first for the inventory marking and aggregation, and
return the totals together with the chronologically re-sorted session
list (the Python display rounding and ISO timestamp formatting of
lines 362-384 are presentation-only and omitted). -/
def calculate_total_costs (cfg : Config) (conv : Convention)
    (d : HistoricalData) (active_window_start : ℚ)
    (charging_events : List ChargingEvent) (inventory_wh : Option ℚ) :
    CostTotals × List SessionData :=
  let all_sessions_data := buildSessions cfg conv d active_window_start
    charging_events
  let sorted := sortByEndTimeDesc all_sessions_data
  let walk := inventoryWalk inventory_wh sorted 0 ⟨0, 0, 0, 0⟩
  (walk.2.2, sortByStartTime walk.1)

/-- The PV share reported in the summary (`pv_ratio`, lines 386-390),
in percent. -/
def pvSharePercent (t : CostTotals) : ℚ :=
  if t.total_energy_charged > 0 then
    t.total_pv_energy / t.total_energy_charged * 100
  else 0

/-- The weighted-average price computation with its division guard
(lines 235-239): fall back to the currently held price when no energy was
charged. -/
def weighted_price (held_price : ℚ) (t : CostTotals) : ℚ :=
  if t.total_energy_charged > 0 then t.total_cost / t.total_energy_charged
  else held_price

/-! ### Handler state and `calculate_battery_price_from_history`
(lines 134-269) -/

/-- Python `round(x, digits)` idealized over ℚ (round half to even). -/
def pythonRound (digits : ℕ) (x : ℚ) : ℚ :=
  let m : ℚ := 10 ^ digits
  let y := x * m
  let f : ℤ := Int.floor y
  let r := y - f
  let rounded : ℚ :=
    if r < 1 / 2 then f
    else if 1 / 2 < r then f + 1
    else if f % 2 = 0 then f else f + 1
  rounded / m

/-- The `last_analysis_results` dictionary (lines 89-98).  The "ratio"
key is modelled by the field `pv_share_percent`; `last_update` is `none`
until first written. -/
structure AnalysisResults where
  stored_energy_price : ℚ
  duration_of_analysis : ℚ
  charged_energy : ℚ
  charged_from_pv : ℚ
  charged_from_grid : ℚ
  pv_share_percent : ℚ
  charging_sessions : List SessionData
  last_update : Option ℚ
deriving DecidableEq, Repr

/-- The mutable handler state read and written by
`calculate_battery_price_from_history`. -/
structure HandlerState where
  price_euro_per_wh : ℚ
  battery_power_convention : Option Convention
  last_analysis_results : AnalysisResults
deriving DecidableEq, Repr

/-- `calculate_battery_price_from_history` (lines 134-269) on already
fetched data: returns the Python return value (`none` models the
no-battery-data `return None`) together with the updated handler state.
Empty battery data only stamps `last_update` on the held results
(line 185); an empty event list stores a fresh zero-valued snapshot and
returns the held price (lines 205-219); otherwise the aggregation runs,
the full snapshot is stored (lines 243-252), and either the weighted
price or the held price is returned (lines 254-263).  The convention
auto-detection performed lazily inside `_identify_charging_periods`
(lines 710-717) is resolved here before identifying events. -/
def calculate_battery_price_from_history (cfg : Config) (st : HandlerState)
    (d : HistoricalData) (lookback_hours : ℚ) (inventory_wh : Option ℚ)
    (now : ℚ) : Option ℚ × HandlerState :=
  if d.battery_power = [] then
    (none,
     { st with last_analysis_results :=
        { st.last_analysis_results with last_update := some now } })
  else
    let conv := st.battery_power_convention.getD
      (detect_battery_power_convention cfg d)
    let st1 : HandlerState := { st with battery_power_convention := some conv }
    let charging_events := identify_charging_periods cfg.charging_threshold_w
      conv d.battery_power
    if charging_events = [] then
      (some st1.price_euro_per_wh,
       { st1 with last_analysis_results :=
          { stored_energy_price := pythonRound 6 st1.price_euro_per_wh
            duration_of_analysis := lookback_hours
            charged_energy := 0
            charged_from_pv := 0
            charged_from_grid := 0
            pv_share_percent := 0
            charging_sessions := []
            last_update := some now } })
    else
      let active_window_start := now - lookback_hours * 3600
      let results := calculate_total_costs cfg conv d active_window_start
        charging_events inventory_wh
      let t := results.1
      let weighted := weighted_price st1.price_euro_per_wh t
      let st2 : HandlerState := { st1 with last_analysis_results :=
        { stored_energy_price := pythonRound 6 weighted
          duration_of_analysis := lookback_hours
          charged_energy := pythonRound 1 t.total_energy_charged
          charged_from_pv := pythonRound 1 t.total_pv_energy
          charged_from_grid := pythonRound 1 t.total_grid_energy
          pv_share_percent := pythonRound 1 (pvSharePercent t)
          charging_sessions := results.2
          last_update := some now } }
      if t.total_energy_charged > 0 then (some weighted, st2)
      else (some st1.price_euro_per_wh, st2)

/-! ### Helper lemmas -/

/-- Closed-form case analysis of `calculate_power_split`: the two
residual `max 0` clamps are redundant because battery power minus a
`min battery _` draw is never negative, leaving only the grid gate and
the fold-back branch. -/
theorem calculate_power_split_cases (gct b pv g l : ℚ) :
    calculate_power_split gct b pv g l
      = (let P := max 0 (pv - min pv l)
         let G := max 0 (g - min g (max 0 (l - min pv l)))
         let pv_to := min b P
         let rem := b - pv_to
         if gct < G then
           (let gto := min rem G
            (if 0 < rem - gto then pv_to + (rem - gto) else pv_to, gto))
         else (if 0 < rem then pv_to + rem else pv_to, 0)) := by
  unfold calculate_power_split
  dsimp only
  set pfl := min pv l with hpfl
  set rl := max 0 (l - pfl) with hrl
  set gfl := min g rl with hgfl
  set P := max 0 (pv - pfl) with hP
  set G := max 0 (g - gfl) with hG
  set pv_to := min b P with hpv_to
  have hpv_le : pv_to ≤ b := min_le_left _ _
  have hrem : max 0 (b - pv_to) = b - pv_to := max_eq_right (by linarith)
  rw [hrem]
  by_cases hgate : G > gct
  · simp only [if_pos hgate]
    set gto := min (b - pv_to) G with hgto
    have hgle : gto ≤ b - pv_to := min_le_left _ _
    have hrem2 : max 0 (b - pv_to - gto) = b - pv_to - gto :=
      max_eq_right (by linarith)
    rw [hrem2]
  · simp only [if_neg hgate]

/-- Conservation at the heart of the splitter: whatever the PV draw, the
gated grid draw and the PV fold-back leave, the two attributions always
sum to the battery power. -/
theorem calculate_power_split_sum (gct b pv g l : ℚ) :
    (calculate_power_split gct b pv g l).1
      + (calculate_power_split gct b pv g l).2 = b := by
  rw [calculate_power_split_cases]
  dsimp only
  set pfl := min pv l
  set P := max 0 (pv - pfl)
  set G := max 0 (g - min g (max 0 (l - pfl)))
  set pv_to := min b P with hpv_to
  have hpv_le : pv_to ≤ b := min_le_left _ _
  by_cases hgate : gct < G
  · simp only [if_pos hgate]
    have hgle : min (b - pv_to) G ≤ b - pv_to := min_le_left _ _
    by_cases h2 : 0 < b - pv_to - min (b - pv_to) G
    · simp only [if_pos h2]; ring
    · simp only [if_neg h2]; linarith
  · simp only [if_neg hgate]
    by_cases h2 : 0 < b - pv_to
    · simp only [if_pos h2]; ring
    · simp only [if_neg h2]
      have hP0 : 0 ≤ P := le_max_left _ _
      have : pv_to = b := by
        rcases min_le_iff.mp (le_refl pv_to) with _ | _ <;> ·
          simp only [hpv_to] at *
          rcases le_total b P with hbP | hbP
          · rw [min_eq_left hbP]
          · rw [min_eq_right hbP] at h2 ⊢; linarith
      linarith

/-- With an empty grid stream (grid power 0) and a non-negative grid
threshold the gate never opens, so the grid attribution is zero. -/
theorem calculate_power_split_no_grid (gct b pv l : ℚ) (hgct : 0 ≤ gct) :
    (calculate_power_split gct b pv 0 l).2 = 0 := by
  rw [calculate_power_split_cases]
  dsimp only
  have hrl : (0 : ℚ) ≤ max 0 (l - min pv l) := le_max_left _ _
  have hgfl : min 0 (max 0 (l - min pv l)) = 0 := min_eq_left hrl
  rw [hgfl]
  have hG : max 0 ((0 : ℚ) - 0) = 0 := by norm_num
  rw [hG, if_neg (by linarith : ¬ gct < (0 : ℚ))]

/-- The interval loop preserves the quantity
`pv_to_battery_wh + grid_to_battery_wh - total_battery_wh`: every interval
adds `(pv_to + grid_to) · Δt` to the attributions and `b · Δt` to the
total, and the split conserves power. -/
theorem splitLoop_conservation (gct : ℚ) (conv : Convention)
    (pv grid load price : List Sample) :
    ∀ (pts : List Sample) (idxs : ℕ × ℕ × ℕ × ℕ) (t : SplitTotals),
      (splitLoop gct conv pv grid load price pts idxs t).pv_to_battery_wh
        + (splitLoop gct conv pv grid load price pts idxs t).grid_to_battery_wh
        - (splitLoop gct conv pv grid load price pts idxs t).total_battery_wh
      = t.pv_to_battery_wh + t.grid_to_battery_wh - t.total_battery_wh := by
  intro pts
  induction pts with
  | nil => intro idxs t; rfl
  | cons p rest ih =>
    intro idxs t
    cases rest with
    | nil => obtain ⟨i1, i2, i3, i4⟩ := idxs; rfl
    | cons q rest2 =>
      obtain ⟨i1, i2, i3, i4⟩ := idxs
      rw [splitLoop]
      rw [ih]
      dsimp only
      have hsum := calculate_power_split_sum gct
        (normalizedPower conv ((p.value + q.value) / 2))
        (get_aligned_value pv p.ts i1 none).1
        (get_aligned_value grid p.ts i2 none).1
        (get_aligned_value load p.ts i3 none).1
      set th := (if q.ts - p.ts > MAX_GAP_SECONDS_IDENTIFY then
        DEFAULT_DELTA_SECONDS else q.ts - p.ts) / 3600 with hth
      have hmul :
          (calculate_power_split gct
              (normalizedPower conv ((p.value + q.value) / 2))
              (get_aligned_value pv p.ts i1 none).1
              (get_aligned_value grid p.ts i2 none).1
              (get_aligned_value load p.ts i3 none).1).1 * th
            + (calculate_power_split gct
              (normalizedPower conv ((p.value + q.value) / 2))
              (get_aligned_value pv p.ts i1 none).1
              (get_aligned_value grid p.ts i2 none).1
              (get_aligned_value load p.ts i3 none).1).2 * th
          = normalizedPower conv ((p.value + q.value) / 2) * th := by
        rw [← add_mul, hsum]
      linarith

/-- C1: for every per-event totals record produced by
`_split_energy_sources` with positive total battery energy, the
PV-attributed energy plus the grid-attributed energy is at most the total
charged energy (in fact the loop invariant gives equality). -/
theorem session_attribution_le_charged (gct : ℚ) (conv : Convention)
    (pts pv grid load price : List Sample)
    (hpos : 0 < (split_energy_sources gct conv pts pv grid load
      price).total_battery_wh) :
    (split_energy_sources gct conv pts pv grid load price).pv_to_battery_wh
      + (split_energy_sources gct conv pts pv grid load
          price).grid_to_battery_wh
      ≤ (split_energy_sources gct conv pts pv grid load
          price).total_battery_wh := by
  have key : (split_energy_sources gct conv pts pv grid load
        price).pv_to_battery_wh
      + (split_energy_sources gct conv pts pv grid load
          price).grid_to_battery_wh
      - (split_energy_sources gct conv pts pv grid load
          price).total_battery_wh = 0 := by
    unfold split_energy_sources
    by_cases hlen : pts.length < 2
    · simp [hlen, zeroTotals]
    · simp only [if_neg hlen]
      have h := splitLoop_conservation gct conv pv grid load price pts
        (0, 0, 0, 0) zeroTotals
      simpa [zeroTotals] using h
  linarith

/-- Witness for C1 at a concrete event (two samples 600 s apart, 2000 W). -/
theorem session_attribution_le_charged_witness :
    0 < (split_energy_sources 100 Convention.positive_charging
        [⟨0, 2000⟩, ⟨600, 2000⟩] [⟨0, 800⟩] [⟨0, 1500⟩] [⟨0, 300⟩]
        [⟨0, 1 / 5⟩]).total_battery_wh
    ∧ (split_energy_sources 100 Convention.positive_charging
        [⟨0, 2000⟩, ⟨600, 2000⟩] [⟨0, 800⟩] [⟨0, 1500⟩] [⟨0, 300⟩]
        [⟨0, 1 / 5⟩]).pv_to_battery_wh
      + (split_energy_sources 100 Convention.positive_charging
        [⟨0, 2000⟩, ⟨600, 2000⟩] [⟨0, 800⟩] [⟨0, 1500⟩] [⟨0, 300⟩]
        [⟨0, 1 / 5⟩]).grid_to_battery_wh
      ≤ (split_energy_sources 100 Convention.positive_charging
        [⟨0, 2000⟩, ⟨600, 2000⟩] [⟨0, 800⟩] [⟨0, 1500⟩] [⟨0, 300⟩]
        [⟨0, 1 / 5⟩]).total_battery_wh := by
  have hp : 0 < (split_energy_sources 100 Convention.positive_charging
      [⟨0, 2000⟩, ⟨600, 2000⟩] [⟨0, 800⟩] [⟨0, 1500⟩] [⟨0, 300⟩]
      [⟨0, 1 / 5⟩]).total_battery_wh := by
    have hcv : ¬ (Convention.positive_charging = Convention.negative_charging) :=
      by decide
    norm_num [split_energy_sources, splitLoop, get_aligned_value, advanceCount,
      normalizedPower, calculate_power_split, zeroTotals, min_def, max_def,
      MAX_GAP_SECONDS_IDENTIFY, DEFAULT_DELTA_SECONDS, hcv]
  exact ⟨hp,
    session_attribution_le_charged 100 Convention.positive_charging
      [⟨0, 2000⟩, ⟨600, 2000⟩] [⟨0, 800⟩] [⟨0, 1500⟩] [⟨0, 300⟩]
      [⟨0, 1 / 5⟩] hp⟩

/-- C10: for non-negative battery, PV, grid and load power the split is an
exact conservation: `pv_to_battery + grid_to_battery = battery_power` —
whatever the grid gate withholds is folded into the PV side. -/
theorem power_split_conservation (gct b pv g l : ℚ)
    (hb : 0 ≤ b) (hpv : 0 ≤ pv) (hg : 0 ≤ g) (hl : 0 ≤ l) :
    (calculate_power_split gct b pv g l).1
      + (calculate_power_split gct b pv g l).2 = b :=
  calculate_power_split_sum gct b pv g l

/-- Witness for C10 at concrete non-negative powers. -/
theorem power_split_conservation_witness :
    (calculate_power_split 100 1200 700 900 400).1
      + (calculate_power_split 100 1200 700 900 400).2 = 1200 :=
  power_split_conservation 100 1200 700 900 400 (by norm_num) (by norm_num)
    (by norm_num) (by norm_num)

/-- C2: the fixed priority rule of the per-interval split — PV serves load
first, battery draws the PV surplus before the grid surplus, the grid
surplus is tapped only above the gate threshold and only for the battery
power PV could not cover, the remainder folds into PV (conservation), and
the concrete mixed-source scenario yields (1500, 1500). -/
theorem power_split_priority_rule :
    (∀ gct b pv g l : ℚ, 0 ≤ b → 0 ≤ pv → 0 ≤ g → 0 ≤ l →
      min b (max 0 (pv - min pv l)) ≤ (calculate_power_split gct b pv g l).1
      ∧ (max 0 (g - min g (max 0 (l - min pv l))) ≤ gct →
          (calculate_power_split gct b pv g l).2 = 0)
      ∧ (calculate_power_split gct b pv g l).2
          ≤ max 0 (g - min g (max 0 (l - min pv l)))
      ∧ (calculate_power_split gct b pv g l).2
          ≤ b - min b (max 0 (pv - min pv l))
      ∧ (calculate_power_split gct b pv g l).1
          + (calculate_power_split gct b pv g l).2 = b)
    ∧ calculate_power_split 100 3000 2000 2000 500 = (1500, 1500) := by
  constructor
  · intro gct b pv g l hb hpv hg hl
    have hsum := calculate_power_split_sum gct b pv g l
    rw [calculate_power_split_cases] at hsum ⊢
    dsimp only at hsum ⊢
    set P := max 0 (pv - min pv l) with hPdef
    set G := max 0 (g - min g (max 0 (l - min pv l))) with hGdef
    set pv_to := min b P with hpv_def
    have hpv_le : pv_to ≤ b := min_le_left _ _
    have hG0 : 0 ≤ G := le_max_left _ _
    by_cases hgate : gct < G
    · simp only [if_pos hgate] at hsum ⊢
      have hgle : min (b - pv_to) G ≤ b - pv_to := min_le_left _ _
      have hgleG : min (b - pv_to) G ≤ G := min_le_right _ _
      by_cases h2 : 0 < b - pv_to - min (b - pv_to) G
      · simp only [if_pos h2] at hsum ⊢
        exact ⟨by linarith, fun hcon => by linarith, by linarith,
          by linarith, hsum⟩
      · simp only [if_neg h2] at hsum ⊢
        exact ⟨by linarith, fun hcon => by linarith, by linarith,
          by linarith, hsum⟩
    · simp only [if_neg hgate] at hsum ⊢
      by_cases h2 : 0 < b - pv_to
      · simp only [if_pos h2] at hsum ⊢
        exact ⟨by linarith, fun _ => by trivial, by linarith, by linarith, hsum⟩
      · simp only [if_neg h2] at hsum ⊢
        exact ⟨by linarith, fun _ => by trivial, by linarith, by linarith, hsum⟩
  · norm_num [calculate_power_split, min_def, max_def]

/-- Witness for C2's universally quantified part at concrete inputs
(scenario 1 of the spec: pure grid charge). -/
theorem power_split_priority_rule_witness :
    min 3000 (max 0 ((0 : ℚ) - min 0 500))
        ≤ (calculate_power_split 100 3000 0 3500 500).1
    ∧ (max 0 ((3500 : ℚ) - min 3500 (max 0 (500 - min 0 500))) ≤ 100 →
        (calculate_power_split 100 3000 0 3500 500).2 = 0)
    ∧ (calculate_power_split 100 3000 0 3500 500).2
        ≤ max 0 ((3500 : ℚ) - min 3500 (max 0 (500 - min 0 500)))
    ∧ (calculate_power_split 100 3000 0 3500 500).2
        ≤ 3000 - min 3000 (max 0 ((0 : ℚ) - min 0 500))
    ∧ (calculate_power_split 100 3000 0 3500 500).1
        + (calculate_power_split 100 3000 0 3500 500).2 = 3000 :=
  power_split_priority_rule.1 100 3000 0 3500 500 (by norm_num) (by norm_num)
    (by norm_num) (by norm_num)

/-- Inserting into the stable sort accumulator is a permutation. -/
theorem insort_perm (keep : α → α → Bool) (l : List α) (p : α) :
    List.Perm (insort keep l p) (p :: l) := by
  induction l with
  | nil => exact List.Perm.refl _
  | cons q rest ih =>
    unfold insort
    by_cases h : keep q p
    · rw [if_pos h]
      exact List.Perm.trans (ih.cons q) (List.Perm.swap p q rest)
    · rw [if_neg h]

/-- The stable insertion sort is a permutation of its input. -/
theorem stableSort_perm (keep : α → α → Bool) (l : List α) :
    List.Perm (stableSort keep l) l := by
  have h : ∀ acc : List α,
      List.Perm (List.foldl (insort keep) acc l) (acc ++ l) := by
    induction l with
    | nil => intro acc; simp
    | cons p rest ih =>
      intro acc
      have h1 : List.Perm (List.foldl (insort keep) (insort keep acc p) rest)
          (insort keep acc p ++ rest) := ih _
      have h2 : List.Perm (insort keep acc p ++ rest) ((p :: acc) ++ rest) :=
        (insort_perm keep acc p).append_right rest
      have h3 : List.Perm ((p :: acc) ++ rest) (acc ++ p :: rest) :=
        List.perm_middle.symm
      exact h1.trans (h2.trans h3)
  simpa using h []

/-- Sum of the `inventory_energy` fields of a session list. -/
def sumInv (l : List SessionData) : ℚ :=
  (l.map SessionData.inventory_energy).sum

/-- Sum of the `charged_energy` fields of a session list. -/
def sumCharged (l : List SessionData) : ℚ :=
  (l.map SessionData.charged_energy).sum

/-- Positively charged sessions have a non-negative energy sum. -/
theorem sumCharged_nonneg (l : List SessionData)
    (h : ∀ s ∈ l, 0 < s.charged_energy) : 0 ≤ sumCharged l := by
  induction l with
  | nil => simp [sumCharged]
  | cons s rest ih =>
    have h1 := h s (by simp)
    have h2 : 0 ≤ sumCharged rest := ih (fun x hx => h x (by simp [hx]))
    simp only [sumCharged, List.map_cons, List.sum_cons] at *
    linarith

/-- Core inventory-walk invariant: starting from an accumulator
`acc ≤ v`, the inventory energies assigned along the walk total
`min v (acc + Σ charged) - acc`. -/
theorem inventoryWalk_sumInv (v : ℚ) :
    ∀ (l : List SessionData) (acc : ℚ) (t : CostTotals),
      0 ≤ acc → acc ≤ v →
      (∀ s ∈ l, 0 < s.charged_energy) →
      (∀ s ∈ l, s.inventory_energy = 0) →
      sumInv (inventoryWalk (some v) l acc t).1
        = min v (acc + sumCharged l) - acc := by
  intro l
  induction l with
  | nil =>
    intro acc t h0 hvacc _ _
    simp [inventoryWalk, sumInv, sumCharged, min_eq_right hvacc]
  | cons s rest ih =>
    intro acc t h0 hvacc hpos hfresh
    have hse : 0 < s.charged_energy := hpos s (by simp)
    have hrest_pos : ∀ x ∈ rest, 0 < x.charged_energy :=
      fun x hx => hpos x (by simp [hx])
    have hrest_fresh : ∀ x ∈ rest, x.inventory_energy = 0 :=
      fun x hx => hfresh x (by simp [hx])
    have hrest_sum : 0 ≤ sumCharged rest := sumCharged_nonneg rest hrest_pos
    rw [inventoryWalk]
    by_cases hacc : acc < v
    · by_cases hle : s.charged_energy ≤ v - acc
      · simp only [inventoryStep, if_pos hacc, if_pos hle]
        simp only [sumInv, List.map_cons, List.sum_cons]
        have htail := ih (acc + s.charged_energy)
          (aggregateStep (some v)
            { s with is_inventory := true, inventory_energy := s.charged_energy } t)
          (by linarith) (by linarith) hrest_pos hrest_fresh
        simp only [sumInv] at htail
        rw [htail]
        have hcons : sumCharged (s :: rest)
            = s.charged_energy + sumCharged rest := by
          simp [sumCharged]
        rw [hcons]
        have harg : acc + (s.charged_energy + sumCharged rest)
            = acc + s.charged_energy + sumCharged rest := by ring
        rw [harg]
        linarith [min_le_left v (acc + s.charged_energy + sumCharged rest)]
      · simp only [inventoryStep, if_pos hacc, if_neg hle]
        simp only [sumInv, List.map_cons, List.sum_cons]
        have htail := ih v
          (aggregateStep (some v)
            { s with is_inventory := true, inventory_energy := v - acc } t)
          (by linarith) (le_refl v) hrest_pos hrest_fresh
        simp only [sumInv] at htail
        rw [htail]
        have hmin1 : min v (v + sumCharged rest) = v :=
          min_eq_left (by linarith)
        rw [hmin1]
        have hcons : sumCharged (s :: rest)
            = s.charged_energy + sumCharged rest := by
          simp [sumCharged]
        have hmin2 : min v (acc + sumCharged (s :: rest)) = v := by
          rw [hcons]
          exact min_eq_left (by linarith)
        rw [hmin2]
        ring
    · have hacc_eq : acc = v := le_antisymm hvacc (not_lt.mp hacc)
      simp only [inventoryStep, if_neg hacc]
      simp only [sumInv, List.map_cons, List.sum_cons]
      have htail := ih acc (aggregateStep (some v) s t) h0 hvacc
        hrest_pos hrest_fresh
      simp only [sumInv] at htail
      rw [htail, hfresh s (by simp)]
      have hcons : sumCharged (s :: rest)
          = s.charged_energy + sumCharged rest := by
        simp [sumCharged]
      have hmin1 : min v (acc + sumCharged rest) = v := by
        rw [hacc_eq]; exact min_eq_left (by linarith)
      have hmin2 : min v (acc + sumCharged (s :: rest)) = v := by
        rw [hcons, hacc_eq]; exact min_eq_left (by linarith)
      rw [hmin1, hmin2]
      ring

/-- C3: for a list of positively-charged, freshly-built sessions and a
non-negative inventory target `v`, the backward walk assigns inventory
energies summing to at most `v`, with equality as soon as the total
charged energy reaches `v`; and once the accumulator has reached `v` a
walk step leaves its session untouched (no further marking). -/
theorem inventory_walk_bounded (v : ℚ) (sessions : List SessionData)
    (hv : 0 ≤ v)
    (hpos : ∀ s ∈ sessions, 0 < s.charged_energy)
    (hfresh : ∀ s ∈ sessions, s.inventory_energy = 0) :
    sumInv (inventoryWalk (some v) (sortByEndTimeDesc sessions) 0
        ⟨0, 0, 0, 0⟩).1 ≤ v
    ∧ (v ≤ sumCharged sessions →
        sumInv (inventoryWalk (some v) (sortByEndTimeDesc sessions) 0
          ⟨0, 0, 0, 0⟩).1 = v)
    ∧ (∀ s acc, v ≤ acc → inventoryStep (some v) s acc = (s, acc)) := by
  have hperm : List.Perm (sortByEndTimeDesc sessions) sessions :=
    stableSort_perm _ _
  have hpos' : ∀ s ∈ sortByEndTimeDesc sessions, 0 < s.charged_energy :=
    fun s hs => hpos s (hperm.mem_iff.mp hs)
  have hfresh' : ∀ s ∈ sortByEndTimeDesc sessions, s.inventory_energy = 0 :=
    fun s hs => hfresh s (hperm.mem_iff.mp hs)
  have hsum : sumCharged (sortByEndTimeDesc sessions) = sumCharged sessions := by
    unfold sumCharged
    exact (hperm.map _).sum_eq
  have hmain := inventoryWalk_sumInv v (sortByEndTimeDesc sessions) 0
    ⟨0, 0, 0, 0⟩ (le_refl 0) hv hpos' hfresh'
  rw [hsum] at hmain
  simp only [zero_add, sub_zero] at hmain
  refine ⟨?_, ?_, ?_⟩
  · rw [hmain]
    exact min_le_left _ _
  · intro hge
    rw [hmain]
    exact min_eq_left hge
  · intro s acc hge
    simp only [inventoryStep, if_neg (not_lt.mpr hge)]

/-- Witness for C3 on two concrete sessions with target 1500 Wh. -/
theorem inventory_walk_bounded_witness :
    sumInv (inventoryWalk (some 1500)
        (sortByEndTimeDesc [⟨0, 10, 1000, 100, 900, 5, false, 0⟩,
          ⟨20, 30, 2000, 0, 2000, 8, false, 0⟩]) 0 ⟨0, 0, 0, 0⟩).1 ≤ 1500
    ∧ (1500 ≤ sumCharged [⟨0, 10, 1000, 100, 900, 5, false, 0⟩,
          ⟨20, 30, 2000, 0, 2000, 8, false, 0⟩] →
        sumInv (inventoryWalk (some 1500)
          (sortByEndTimeDesc [⟨0, 10, 1000, 100, 900, 5, false, 0⟩,
            ⟨20, 30, 2000, 0, 2000, 8, false, 0⟩]) 0 ⟨0, 0, 0, 0⟩).1 = 1500)
    ∧ (∀ s acc, (1500 : ℚ) ≤ acc → inventoryStep (some 1500) s acc = (s, acc)) :=
  inventory_walk_bounded 1500
    [⟨0, 10, 1000, 100, 900, 5, false, 0⟩, ⟨20, 30, 2000, 0, 2000, 8, false, 0⟩]
    (by norm_num)
    (by
      intro s hs
      simp only [List.mem_cons, List.not_mem_nil, or_false] at hs
      rcases hs with h | h <;> subst h <;> norm_num)
    (by
      intro s hs
      simp only [List.mem_cons, List.not_mem_nil, or_false] at hs
      rcases hs with h | h <;> subst h <;> norm_num)

/-- C4: scenario 5 of the spec.  Two sessions of 1000 Wh and 2000 Wh
charged energy with different costs, inventory target 1500 Wh, the
2000 Wh session being the more recent by end time: the walk consumes the
recent session first, books `inventory_energy = 1500` on it and `0` on
the older one, and the weighted price equals the recent session's unit
price `c2 / 2000` exactly. -/
theorem inventory_walk_scenario5 (a1 e1 a2 e2 pv1 gr1 pv2 gr2 c1 c2 held : ℚ)
    (hend : e1 < e2) (hcost : c1 ≠ c2) :
    (inventoryWalk (some 1500)
        (sortByEndTimeDesc [⟨a1, e1, 1000, pv1, gr1, c1, false, 0⟩,
          ⟨a2, e2, 2000, pv2, gr2, c2, false, 0⟩]) 0 ⟨0, 0, 0, 0⟩).1
      = [⟨a2, e2, 2000, pv2, gr2, c2, true, 1500⟩,
         ⟨a1, e1, 1000, pv1, gr1, c1, false, 0⟩]
    ∧ weighted_price held
        (inventoryWalk (some 1500)
          (sortByEndTimeDesc [⟨a1, e1, 1000, pv1, gr1, c1, false, 0⟩,
            ⟨a2, e2, 2000, pv2, gr2, c2, false, 0⟩]) 0 ⟨0, 0, 0, 0⟩).2.2
      = c2 / 2000 := by
  have hd : decide (e2 ≤ e1) = false := decide_eq_false (not_le.mpr hend)
  have hsort : sortByEndTimeDesc [⟨a1, e1, 1000, pv1, gr1, c1, false, 0⟩,
      ⟨a2, e2, 2000, pv2, gr2, c2, false, 0⟩]
      = [⟨a2, e2, 2000, pv2, gr2, c2, false, 0⟩,
         ⟨a1, e1, 1000, pv1, gr1, c1, false, 0⟩] := by
    simp [sortByEndTimeDesc, stableSort, insort, hd]
  rw [hsort]
  have hwalk : inventoryWalk (some 1500)
      [⟨a2, e2, 2000, pv2, gr2, c2, false, 0⟩,
       ⟨a1, e1, 1000, pv1, gr1, c1, false, 0⟩] 0 ⟨0, 0, 0, 0⟩
      = ([⟨a2, e2, 2000, pv2, gr2, c2, true, 1500⟩,
          ⟨a1, e1, 1000, pv1, gr1, c1, false, 0⟩],
         1500,
         ⟨c2 * (1500 / 2000), 1500, pv2 * (1500 / 2000),
          gr2 * (1500 / 2000)⟩) := by
    norm_num [inventoryWalk, inventoryStep, aggregateStep]
  rw [hwalk]
  constructor
  · rfl
  · show weighted_price held
      ⟨c2 * (1500 / 2000), 1500, pv2 * (1500 / 2000), gr2 * (1500 / 2000)⟩
      = c2 / 2000
    unfold weighted_price
    norm_num
    ring

/-- Witness for C4 at concrete end times and costs. -/
theorem inventory_walk_scenario5_witness :
    (inventoryWalk (some 1500)
        (sortByEndTimeDesc [⟨0, 10, 1000, 100, 900, 5, false, 0⟩,
          ⟨20, 30, 2000, 0, 2000, 8, false, 0⟩]) 0 ⟨0, 0, 0, 0⟩).1
      = [⟨20, 30, 2000, 0, 2000, 8, true, 1500⟩,
         ⟨0, 10, 1000, 100, 900, 5, false, 0⟩]
    ∧ weighted_price 99
        (inventoryWalk (some 1500)
          (sortByEndTimeDesc [⟨0, 10, 1000, 100, 900, 5, false, 0⟩,
            ⟨20, 30, 2000, 0, 2000, 8, false, 0⟩]) 0 ⟨0, 0, 0, 0⟩).2.2
      = 8 / 2000 :=
  inventory_walk_scenario5 0 10 20 30 100 900 0 2000 5 8 99 (by norm_num)
    (by norm_num)

/-- C5: the calculation never writes the held price field
(`price_euro_per_wh` is only assigned by `update_price_if_needed`, outside
this function), and whenever the aggregation produced zero total energy
the function returns exactly the previously held price — the division in
`weighted_price` is guarded and never reached. -/
theorem division_guard_price_unchanged (cfg : Config) (st : HandlerState)
    (d : HistoricalData) (lookback_hours : ℚ) (inventory_wh : Option ℚ)
    (now : ℚ) :
    (calculate_battery_price_from_history cfg st d lookback_hours inventory_wh
        now).2.price_euro_per_wh = st.price_euro_per_wh
    ∧ (d.battery_power ≠ [] →
        (calculate_total_costs cfg
            (st.battery_power_convention.getD
              (detect_battery_power_convention cfg d))
            d (now - lookback_hours * 3600)
            (identify_charging_periods cfg.charging_threshold_w
              (st.battery_power_convention.getD
                (detect_battery_power_convention cfg d))
              d.battery_power)
            inventory_wh).1.total_energy_charged = 0 →
        (calculate_battery_price_from_history cfg st d lookback_hours
            inventory_wh now).1 = some st.price_euro_per_wh) := by
  unfold calculate_battery_price_from_history
  by_cases hb : d.battery_power = []
  · simp only [if_pos hb]
    exact ⟨by trivial, fun hcon => absurd hb hcon⟩
  · simp only [if_neg hb]
    by_cases hev : identify_charging_periods cfg.charging_threshold_w
        (st.battery_power_convention.getD
          (detect_battery_power_convention cfg d)) d.battery_power = []
    · simp only [if_pos hev]
      exact ⟨by trivial, fun _ _ => by trivial⟩
    · simp only [if_neg hev]
      constructor
      · by_cases hpos : (calculate_total_costs cfg
            (st.battery_power_convention.getD
              (detect_battery_power_convention cfg d))
            d (now - lookback_hours * 3600)
            (identify_charging_periods cfg.charging_threshold_w
              (st.battery_power_convention.getD
                (detect_battery_power_convention cfg d))
              d.battery_power)
            inventory_wh).1.total_energy_charged > 0
        · simp only [if_pos hpos]
        · simp only [if_neg hpos]
      · intro _ hzero
        rw [hzero]
        norm_num

/-- Witness for C5: a single above-threshold battery sample forms one
charging event whose lone point is dropped by the splitter, so the total
energy is zero and the held price (7 / 100000) is returned unchanged. -/
theorem division_guard_price_unchanged_witness :
    ((calculate_battery_price_from_history ⟨50, 100, 19 / 20⟩
        ⟨7 / 100000, some Convention.positive_charging,
          ⟨1, 48, 42, 10, 32, 0, [], none⟩⟩
        ⟨[⟨0, 1000⟩], [], [], [], []⟩ 48 none 0).2.price_euro_per_wh
      = 7 / 100000)
    ∧ ((calculate_battery_price_from_history ⟨50, 100, 19 / 20⟩
        ⟨7 / 100000, some Convention.positive_charging,
          ⟨1, 48, 42, 10, 32, 0, [], none⟩⟩
        ⟨[⟨0, 1000⟩], [], [], [], []⟩ 48 none 0).1 = some (7 / 100000)) := by
  have h := division_guard_price_unchanged ⟨50, 100, 19 / 20⟩
    ⟨7 / 100000, some Convention.positive_charging,
      ⟨1, 48, 42, 10, 32, 0, [], none⟩⟩
    ⟨[⟨0, 1000⟩], [], [], [], []⟩ 48 none 0
  refine ⟨h.1, h.2 (by simp) ?_⟩
  have hcv : ¬ (Convention.positive_charging = Convention.negative_charging) :=
    by decide
  have hdec : decide ((1000 : ℚ) ≤ 50) = false := decide_eq_false (by norm_num)
  norm_num [calculate_total_costs, buildSessions, inventoryWalk,
    identify_charging_periods, sortByTs, stableSort, insort, identifyStep,
    close_charging_event, trimTail, normalizedPower, split_energy_sources,
    sortByEndTimeDesc, sortByStartTime, zeroTotals,
    MAX_GAP_SECONDS_IDENTIFY, hcv, hdec]

/-- Counterexample to C7: on the no-battery-data abort (line 185 of the
source) the stored analysis result is not replaced by a fully-formed
snapshot — it is the previous record with only `last_update` overwritten,
so the outcome of the run depends on the previously held result.  Two
runs over the same empty data, differing only in the previously stored
`stored_energy_price` (1 vs 2), leave different results behind. -/
theorem results_not_wholesale_on_no_data_cex :
    (calculate_battery_price_from_history ⟨50, 100, 19 / 20⟩
        ⟨7 / 100000, some Convention.positive_charging,
          ⟨1, 48, 42, 10, 32, 0, [], none⟩⟩
        ⟨[], [], [], [], []⟩ 48 none 5).2.last_analysis_results
      = ⟨1, 48, 42, 10, 32, 0, [], some 5⟩
    ∧ (calculate_battery_price_from_history ⟨50, 100, 19 / 20⟩
        ⟨7 / 100000, some Convention.positive_charging,
          ⟨2, 48, 42, 10, 32, 0, [], none⟩⟩
        ⟨[], [], [], [], []⟩ 48 none 5).2.last_analysis_results
      = ⟨2, 48, 42, 10, 32, 0, [], some 5⟩
    ∧ (⟨1, 48, 42, 10, 32, 0, [], some 5⟩ : AnalysisResults)
      ≠ ⟨2, 48, 42, 10, 32, 0, [], some 5⟩ :=
  ⟨rfl, rfl, by norm_num [AnalysisResults.mk.injEq]⟩

/-- C7 amended: on the no-data abort only the `last_update` field of the
held result is overwritten in place, every other field being retained;
on every other outcome (no events found, or a completed aggregation) the
stored result is a fully-formed snapshot that does not depend on the
previously held result. -/
theorem results_update_paths (cfg : Config) :
    (∀ (st : HandlerState) (d : HistoricalData) (lb : ℚ) (inv : Option ℚ)
        (now : ℚ), d.battery_power = [] →
      (calculate_battery_price_from_history cfg st d lb inv
          now).2.last_analysis_results
        = { st.last_analysis_results with last_update := some now })
    ∧ (∀ (price : ℚ) (convO : Option Convention) (r1 r2 : AnalysisResults)
        (d : HistoricalData) (lb : ℚ) (inv : Option ℚ) (now : ℚ),
        d.battery_power ≠ [] →
        (calculate_battery_price_from_history cfg ⟨price, convO, r1⟩ d lb inv
            now).2.last_analysis_results
          = (calculate_battery_price_from_history cfg ⟨price, convO, r2⟩ d lb
              inv now).2.last_analysis_results) := by
  constructor
  · intro st d lb inv now hb
    unfold calculate_battery_price_from_history
    rw [if_pos hb]
  · intro price convO r1 r2 d lb inv now hb
    unfold calculate_battery_price_from_history
    rw [if_neg hb, if_neg hb]

/-- Witness for C7's amended statement on concrete inputs for both the
no-data path and the prior-result independence of the computing path. -/
theorem results_update_paths_witness :
    ((calculate_battery_price_from_history ⟨50, 100, 19 / 20⟩
        ⟨3 / 100000, some Convention.positive_charging,
          ⟨4, 24, 7, 3, 4, 0, [], none⟩⟩
        ⟨[], [], [], [], []⟩ 24 none 9).2.last_analysis_results
      = { (⟨4, 24, 7, 3, 4, 0, [], none⟩ : AnalysisResults) with
          last_update := some 9 })
    ∧ ((calculate_battery_price_from_history ⟨50, 100, 19 / 20⟩
        ⟨3 / 100000, some Convention.positive_charging,
          ⟨4, 24, 7, 3, 4, 0, [], none⟩⟩
        ⟨[⟨0, 10⟩], [], [], [], []⟩ 24 none 9).2.last_analysis_results
      = (calculate_battery_price_from_history ⟨50, 100, 19 / 20⟩
        ⟨3 / 100000, some Convention.positive_charging,
          ⟨5, 24, 0, 0, 0, 0, [], some 3⟩⟩
        ⟨[⟨0, 10⟩], [], [], [], []⟩ 24 none 9).2.last_analysis_results) :=
  ⟨(results_update_paths ⟨50, 100, 19 / 20⟩).1
      ⟨3 / 100000, some Convention.positive_charging,
        ⟨4, 24, 7, 3, 4, 0, [], none⟩⟩
      ⟨[], [], [], [], []⟩ 24 none 9 rfl,
   (results_update_paths ⟨50, 100, 19 / 20⟩).2
      (3 / 100000) (some Convention.positive_charging)
      ⟨4, 24, 7, 3, 4, 0, [], none⟩ ⟨5, 24, 0, 0, 0, 0, [], some 3⟩
      ⟨[⟨0, 10⟩], [], [], [], []⟩ 24 none 9 (by simp)⟩

/-- C8: the charging-event lifecycle.  (i) Any sample whose gap since the
last above-threshold sample is under 600 s extends the open event —
including sub-threshold samples — the gap reference advancing only on
above-threshold samples; (ii) a gap at or above 600 s closes the event
(an above-threshold sample then opens a fresh one); (iii)/(iv) trimming
removes a trailing sample exactly when its normalized power is at or
below the threshold; (v) an event whose samples are all trimmed away is
discarded; (vi) otherwise the closed event keeps the trimmed points and
its `end_time` becomes the last remaining sample's timestamp. -/
theorem charging_event_lifecycle (conv : Convention) (threshold : ℚ)
    (events : List ChargingEvent) (ev : ChargingEvent) (lastT : ℚ)
    (p q : Sample) (pts : List Sample) :
    (p.ts - lastT < MAX_GAP_SECONDS_IDENTIFY →
      identifyStep conv threshold ⟨events, some (ev, lastT)⟩ p
        = ⟨events, some
            ({ ev with end_time := p.ts,
                       power_points := ev.power_points ++ [p] },
             if normalizedPower conv p.value > threshold then p.ts
             else lastT)⟩)
    ∧ (MAX_GAP_SECONDS_IDENTIFY ≤ p.ts - lastT →
      identifyStep conv threshold ⟨events, some (ev, lastT)⟩ p
        = ⟨close_charging_event conv threshold ev events,
           if normalizedPower conv p.value > threshold then
             some (⟨p.ts, p.ts, [p]⟩, p.ts)
           else none⟩)
    ∧ (normalizedPower conv q.value ≤ threshold →
        trimTail conv threshold (pts ++ [q]) = trimTail conv threshold pts)
    ∧ (threshold < normalizedPower conv q.value →
        trimTail conv threshold (pts ++ [q]) = pts ++ [q])
    ∧ (trimTail conv threshold ev.power_points = [] →
        close_charging_event conv threshold ev events = events)
    ∧ (∀ last, (trimTail conv threshold ev.power_points).getLast? = some last →
        close_charging_event conv threshold ev events
          = events ++ [{ ev with
              power_points := trimTail conv threshold ev.power_points,
              end_time := last.ts }]) := by
  refine ⟨?_, ?_, ?_, ?_, ?_, ?_⟩
  · intro hgap
    simp only [identifyStep]
    by_cases hth : normalizedPower conv p.value > threshold
    · simp [hth, hgap]
    · simp [hth, hgap]
  · intro hgap
    have hgap' : ¬ (p.ts - lastT < MAX_GAP_SECONDS_IDENTIFY) := not_lt.mpr hgap
    simp only [identifyStep]
    by_cases hth : normalizedPower conv p.value > threshold
    · simp [hth, hgap']
    · simp [hth, hgap']
  · intro hq
    have hd : decide (normalizedPower conv q.value ≤ threshold) = true :=
      decide_eq_true hq
    simp [trimTail, List.dropWhile_cons, hd]
  · intro hq
    have hd : decide (normalizedPower conv q.value ≤ threshold) = false :=
      decide_eq_false (not_le.mpr hq)
    simp [trimTail, List.dropWhile_cons, hd]
  · intro htrim
    simp [close_charging_event, htrim]
  · intro last hlast
    simp [close_charging_event, hlast]

/-- Witness for C8 at concrete samples (threshold 50 W, gap bound 600 s). -/
theorem charging_event_lifecycle_witness :
    (identifyStep Convention.positive_charging 50
        ⟨[], some (⟨0, 0, [⟨0, 100⟩]⟩, 0)⟩ ⟨30, 20⟩
      = ⟨[], some
          ({ (⟨0, 0, [⟨0, 100⟩]⟩ : ChargingEvent) with
              end_time := (⟨30, 20⟩ : Sample).ts,
              power_points := [⟨0, 100⟩] ++ [⟨30, 20⟩] },
           if normalizedPower Convention.positive_charging
               (⟨30, 20⟩ : Sample).value > 50 then (⟨30, 20⟩ : Sample).ts
           else 0)⟩)
    ∧ (identifyStep Convention.positive_charging 50
        ⟨[], some (⟨0, 0, [⟨0, 100⟩]⟩, 0)⟩ ⟨700, 20⟩
      = ⟨close_charging_event Convention.positive_charging 50
            ⟨0, 0, [⟨0, 100⟩]⟩ [],
         if normalizedPower Convention.positive_charging
             (⟨700, 20⟩ : Sample).value > 50 then
           some (⟨(⟨700, 20⟩ : Sample).ts, (⟨700, 20⟩ : Sample).ts,
             [⟨700, 20⟩]⟩, (⟨700, 20⟩ : Sample).ts)
         else none⟩)
    ∧ (trimTail Convention.positive_charging 50 ([⟨0, 100⟩] ++ [⟨40, 10⟩])
        = trimTail Convention.positive_charging 50 [⟨0, 100⟩])
    ∧ (trimTail Convention.positive_charging 50 ([⟨0, 100⟩] ++ [⟨40, 90⟩])
        = [⟨0, 100⟩] ++ [⟨40, 90⟩])
    ∧ (close_charging_event Convention.positive_charging 50
        ⟨0, 5, [⟨0, 10⟩]⟩ [] = [])
    ∧ (close_charging_event Convention.positive_charging 50
        ⟨0, 0, [⟨0, 100⟩]⟩ []
      = [] ++ [{ (⟨0, 0, [⟨0, 100⟩]⟩ : ChargingEvent) with
          power_points :=
            trimTail Convention.positive_charging 50 [⟨0, 100⟩],
          end_time := (⟨0, 100⟩ : Sample).ts }]) := by
  have hcv : ¬ (Convention.positive_charging = Convention.negative_charging) :=
    by decide
  have htrim1 : trimTail Convention.positive_charging 50 [⟨0, 10⟩] = [] := by
    have hd : decide ((10 : ℚ) ≤ 50) = true := decide_eq_true (by norm_num)
    norm_num [trimTail, normalizedPower, hcv, hd]
  have htrim2 : trimTail Convention.positive_charging 50 [⟨0, 100⟩]
      = [⟨0, 100⟩] := by
    have hd : decide ((100 : ℚ) ≤ 50) = false := decide_eq_false (by norm_num)
    norm_num [trimTail, normalizedPower, hcv, hd]
  refine ⟨?_, ?_, ?_, ?_, ?_, ?_⟩
  · exact (charging_event_lifecycle Convention.positive_charging 50 []
      ⟨0, 0, [⟨0, 100⟩]⟩ 0 ⟨30, 20⟩ ⟨30, 20⟩ []).1
      (by norm_num [MAX_GAP_SECONDS_IDENTIFY])
  · exact (charging_event_lifecycle Convention.positive_charging 50 []
      ⟨0, 0, [⟨0, 100⟩]⟩ 0 ⟨700, 20⟩ ⟨700, 20⟩ []).2.1
      (by norm_num [MAX_GAP_SECONDS_IDENTIFY])
  · exact (charging_event_lifecycle Convention.positive_charging 50 []
      ⟨0, 0, [⟨0, 100⟩]⟩ 0 ⟨40, 10⟩ ⟨40, 10⟩ [⟨0, 100⟩]).2.2.1
      (by norm_num [normalizedPower, hcv])
  · exact (charging_event_lifecycle Convention.positive_charging 50 []
      ⟨0, 0, [⟨0, 100⟩]⟩ 0 ⟨40, 90⟩ ⟨40, 90⟩ [⟨0, 100⟩]).2.2.2.1
      (by norm_num [normalizedPower, hcv])
  · exact (charging_event_lifecycle Convention.positive_charging 50 []
      ⟨0, 5, [⟨0, 10⟩]⟩ 0 ⟨0, 10⟩ ⟨0, 10⟩ []).2.2.2.2.1 htrim1
  · exact (charging_event_lifecycle Convention.positive_charging 50 []
      ⟨0, 0, [⟨0, 100⟩]⟩ 0 ⟨0, 100⟩ ⟨0, 100⟩ []).2.2.2.2.2 ⟨0, 100⟩
      (by rw [htrim2]; rfl)

/-- C9: whenever fewer than 3 contextual energy-available events are
counted over the sample window (the most recent `max 100 (n / 5)` battery
points), convention detection returns the majority sign among
sample-window points whose magnitude exceeds twice the charging
threshold: strictly more negative than positive high-magnitude points
yields `negative_charging`, otherwise `positive_charging`. -/
theorem convention_detection_fallback (cfg : Config) (d : HistoricalData)
    (hfew : (conventionCounts cfg d).1 + (conventionCounts cfg d).2 < 3) :
    detect_battery_power_convention cfg d
      = (if (conventionSampleWindow d).countP
            (fun p => decide
              (|p.value| > cfg.charging_threshold_w * 2 ∧ p.value > 0))
          < (conventionSampleWindow d).countP
            (fun p => decide
              (|p.value| > cfg.charging_threshold_w * 2 ∧ p.value < 0))
        then Convention.negative_charging
        else Convention.positive_charging) := by
  have hperm : List.Perm (sortByTs (conventionSampleWindow d))
      (conventionSampleWindow d) := stableSort_perm _ _
  have hpos := hperm.countP_eq
    (fun p => decide (|p.value| > cfg.charging_threshold_w * 2 ∧ p.value > 0))
  have hneg := hperm.countP_eq
    (fun p => decide (|p.value| > cfg.charging_threshold_w * 2 ∧ p.value < 0))
  unfold detect_battery_power_convention
  cases hb : d.battery_power with
  | nil =>
    have hw : conventionSampleWindow d = [] := by
      unfold conventionSampleWindow
      rw [hb]
      simp
    rw [hw]
    simp
  | cons a as =>
    dsimp only
    rw [if_pos hfew]
    unfold fallback_convention_detection
    dsimp only
    rw [hpos, hneg]

/-- Witness for C9: a single high positive battery sample with no other
sensor data yields zero contextual events, and the fallback formula is
what detection returns. -/
theorem convention_detection_fallback_witness :
    (conventionCounts ⟨50, 100, 19 / 20⟩
        ⟨[⟨0, 1000⟩], [], [], [], []⟩).1
      + (conventionCounts ⟨50, 100, 19 / 20⟩
        ⟨[⟨0, 1000⟩], [], [], [], []⟩).2 < 3
    ∧ detect_battery_power_convention ⟨50, 100, 19 / 20⟩
        ⟨[⟨0, 1000⟩], [], [], [], []⟩
      = (if (conventionSampleWindow
              (⟨[⟨0, 1000⟩], [], [], [], []⟩ : HistoricalData)).countP
            (fun p => decide
              (|p.value| > (⟨50, 100, 19 / 20⟩ : Config).charging_threshold_w
                * 2 ∧ p.value > 0))
          < (conventionSampleWindow
              (⟨[⟨0, 1000⟩], [], [], [], []⟩ : HistoricalData)).countP
            (fun p => decide
              (|p.value| > (⟨50, 100, 19 / 20⟩ : Config).charging_threshold_w
                * 2 ∧ p.value < 0))
        then Convention.negative_charging
        else Convention.positive_charging) := by
  have habs : |(1000 : ℚ)| = 1000 := abs_of_pos (by norm_num)
  have hfew : (conventionCounts ⟨50, 100, 19 / 20⟩
        ⟨[⟨0, 1000⟩], [], [], [], []⟩).1
      + (conventionCounts ⟨50, 100, 19 / 20⟩
        ⟨[⟨0, 1000⟩], [], [], [], []⟩).2 < 3 := by
    norm_num [conventionCounts, conventionFiltered, conventionSampleWindow,
      contextualCounts, sortByTs, stableSort, insort,
      get_value_at_timestamp, habs]
  exact ⟨hfew, convention_detection_fallback ⟨50, 100, 19 / 20⟩
    ⟨[⟨0, 1000⟩], [], [], [], []⟩ hfew⟩

/-- Counterexample to C6: with an empty `price_data` series the splitter
does not use a zero price — the time-of-day fallback price applies.  A
grid-charged interval at noon (hour 12 ⇒ 0.25 €/kWh) accrues a nonzero
grid cost of 1/16 €, which would be 0 were the empty price series treated
as constant zero. -/
theorem empty_price_series_not_zero_cex :
    (split_energy_sources 100 Convention.positive_charging
        [⟨43200, 3000⟩, ⟨43500, 3000⟩] [] [⟨43200, 3500⟩] []
        []).grid_cost_euro = 1 / 16
    ∧ (1 / 16 : ℚ) ≠ 0 := by
  constructor
  · have hcv : ¬ (Convention.positive_charging
        = Convention.negative_charging) := by decide
    have hprice : get_fallback_price 43200 = 1 / 4 := by
      norm_num [get_fallback_price, hourOf]
    norm_num [split_energy_sources, splitLoop, get_aligned_value,
      advanceCount, normalizedPower, calculate_power_split, zeroTotals,
      min_def, max_def, MAX_GAP_SECONDS_IDENTIFY, DEFAULT_DELTA_SECONDS,
      hcv, hprice]
  · norm_num

/-- The interval loop never accrues grid energy when the grid stream is
empty: the aligned grid power is 0, so the gate stays shut for any
non-negative gate threshold. -/
theorem splitLoop_no_grid (gct : ℚ) (conv : Convention)
    (pvl loadl pricel : List Sample) (hgct : 0 ≤ gct) :
    ∀ (pts : List Sample) (idxs : ℕ × ℕ × ℕ × ℕ) (t : SplitTotals),
      (splitLoop gct conv pvl [] loadl pricel pts idxs t).grid_to_battery_wh
        = t.grid_to_battery_wh := by
  intro pts
  induction pts with
  | nil => intro idxs t; rfl
  | cons p rest ih =>
    intro idxs t
    cases rest with
    | nil => obtain ⟨i1, i2, i3, i4⟩ := idxs; rfl
    | cons q rest2 =>
      obtain ⟨i1, i2, i3, i4⟩ := idxs
      rw [splitLoop]
      rw [ih]
      dsimp only
      have hz : (get_aligned_value [] p.ts i2 none).1 = 0 := rfl
      rw [hz]
      rw [calculate_power_split_no_grid gct
        (normalizedPower conv ((p.value + q.value) / 2))
        (get_aligned_value pvl p.ts i1 none).1
        (get_aligned_value loadl p.ts i3 none).1 hgct]
      ring

/-- C6 amended: empty `pv_power`, `grid_power` and `load_power` series are
read as constant 0 by the aligned lookup; the empty `price_data` series is
instead read as the time-of-day fallback price, which is never zero; an
empty grid series forces `grid_to_battery_wh = 0` for the whole event; and
the concrete missing-grid scenario (battery 3000 W, pv 0, load 500 W)
attributes everything to PV without error. -/
theorem empty_series_handling :
    (∀ (ts : ℚ) (idx : ℕ), get_aligned_value [] ts idx none = (0, idx))
    ∧ (∀ (ts : ℚ) (idx : ℕ), get_aligned_value [] ts idx
        (some get_fallback_price) = (get_fallback_price ts, idx))
    ∧ (∀ ts : ℚ, get_fallback_price ts ≠ 0)
    ∧ (∀ (gct : ℚ) (conv : Convention) (pts pvl loadl pricel : List Sample),
        0 ≤ gct →
        (split_energy_sources gct conv pts pvl [] loadl
            pricel).grid_to_battery_wh = 0)
    ∧ split_energy_sources 100 Convention.positive_charging
        [⟨0, 3000⟩, ⟨300, 3000⟩] [⟨0, 0⟩] [] [⟨0, 500⟩] [⟨0, 3 / 10⟩]
      = ⟨250, 0, 250, 0, 0, 125 / 3, 0⟩ := by
  refine ⟨fun ts idx => rfl, fun ts idx => rfl, ?_, ?_, ?_⟩
  · intro ts
    unfold get_fallback_price
    dsimp only
    split_ifs <;> norm_num
  · intro gct conv pts pvl loadl pricel hgct
    unfold split_energy_sources
    by_cases hlen : pts.length < 2
    · rw [if_pos hlen]
      rfl
    · rw [if_neg hlen]
      rw [splitLoop_no_grid gct conv pvl loadl pricel hgct]
      rfl
  · have hcv : ¬ (Convention.positive_charging
        = Convention.negative_charging) := by decide
    norm_num [split_energy_sources, splitLoop, get_aligned_value,
      advanceCount, normalizedPower, calculate_power_split, zeroTotals,
      min_def, max_def, MAX_GAP_SECONDS_IDENTIFY, DEFAULT_DELTA_SECONDS,
      hcv]

/-- Witness for C6's amended statement at concrete inputs. -/
theorem empty_series_handling_witness :
    get_aligned_value [] 7 2 none = (0, 2)
    ∧ get_fallback_price 43200 ≠ 0
    ∧ (split_energy_sources 100 Convention.positive_charging
        [⟨0, 900⟩, ⟨120, 900⟩] [⟨0, 2000⟩] [] [⟨0, 100⟩]
        [⟨0, 1 / 5⟩]).grid_to_battery_wh = 0 :=
  ⟨empty_series_handling.1 7 2,
   empty_series_handling.2.2.1 43200,
   empty_series_handling.2.2.2.1 100 Convention.positive_charging
     [⟨0, 900⟩, ⟨120, 900⟩] [⟨0, 2000⟩] [⟨0, 100⟩] [⟨0, 1 / 5⟩]
     (by norm_num)⟩

end BatteryPrice
